import Mathlib

/-!
Shallow embedding of the crawl scheduler of `unaveragetech/crawlie`
(`src/app.py`, function `main`, lines 244-309, and `respect_robots_txt`,
lines 112-132), with theorems settling the specification claims about it.

Modelling conventions:
* URLs are plain strings; `crawl_state["processed_urls"]` (a Python set) is
  modelled as the list of its insertions — only membership is ever consulted;
* the robots.txt lookup and the HTTP fetch are oracles (`String → RobotsInfo`,
  `String → FetchResult`): the network reply is an input of the model;
* real time advances only by the `time.sleep` calls of `respect_robots_txt`;
  the model clock is therefore a lower bound on real elapsed time, which is
  exactly the spacing guarantee the code provides;
* pycurl transfer completion is a schedule `done : Nat → Task → Bool` saying
  which in-flight handles have finished by the `info_read` pass of outer-loop
  iteration `k`; opening the per-document output file is assumed to succeed.
-/

namespace Crawlie

/-- A pending fetch task: one `(url, depth)` pair of `crawl_state["queue"]`. -/
structure Task where
  url : String
  depth : Nat
deriving DecidableEq

/-- The scheduler-relevant settings of `main`: `numConn` is the value
`num_conn = min(settings['connections'], len(crawl_state["queue"]))`
computed at startup (line 233), `maxDepth` is `settings['depth']`, and
`searchLinks` is `settings['search_links']`. -/
structure Config where
  numConn : Nat
  maxDepth : Nat
  searchLinks : Bool

/-- What the robots.txt lookup for a URL yields, abstracting
`RobotFileParser.read` / `can_fetch` / `crawl_delay` inside
`respect_robots_txt`: either the read succeeded, with the `can_fetch`
verdict and the optional numeric crawl-delay, or it raised an exception. -/
inductive RobotsInfo where
  | ok (canFetch : Bool) (crawlDelay : Option ℚ)
  | err
deriving DecidableEq

/-- Result of one completed transfer, combining the pycurl outcome with
`search_links` on the downloaded content: success carries the finite list of
links found in the page (an HTML parse error yields the empty list, line 43),
failure carries the curl error message of `err_list`. -/
inductive FetchResult where
  | success (links : List String)
  | failure (msg : String)
deriving DecidableEq

/-- Whether the transfer ended on `ok_list` rather than `err_list`. -/
def FetchResult.isOk : FetchResult → Bool
  | .success _ => true
  | .failure _ => false

/-- The links `search_links` extracted from a successful fetch. -/
def FetchResult.linksOf : FetchResult → List String
  | .success ls => ls
  | .failure _ => []

/-- The curl error message of a failed fetch. -/
def FetchResult.msgOf : FetchResult → String
  | .success _ => ""
  | .failure m => m

/-- The per-URL log lines the scheduler emits: the `logging.warning` and
`logging.error` calls of `respect_robots_txt` (lines 121, 130) and of the
`err_list` handler of `main` (line 295). -/
inductive LogLine where
  | robotsDisallow (url : String)
  | robotsError (url : String)
  | fetchError (url : String) (msg : String)
deriving DecidableEq

/-- Effect of `respect_robots_txt(url, user_agent)` (lines 112-132): the
returned permission, the total time the function sleeps, and the log lines it
emits.  Mirrors the source: a disallowed URL logs a warning and returns
`False` before any sleep; an allowed URL sleeps the declared crawl-delay when
it is truthy (present and nonzero) and 1 second otherwise; any exception in
the `try` block — including the `ValueError` a negative crawl-delay raises in
`time.sleep` — logs an error, sleeps 1 second and returns `True`. -/
def respect_robots_txt (info : RobotsInfo) (url : String) :
    Bool × ℚ × List LogLine :=
  match info with
  | .ok false _ => (false, 0, [.robotsDisallow url])
  | .ok true (some d) =>
      if d < 0 then (true, 1, [.robotsError url])
      else if d = 0 then (true, 1, []) else (true, d, [])
  | .ok true none => (true, 1, [])
  | .err => (true, 1, [.robotsError url])

/-- Scheduler state of `main` together with the event traces needed to state
the specification's properties: `queue` is `crawl_state["queue"]`,
`processed` is `crawl_state["processed_urls"]`, `inFlight` are the handles
currently added to the multi handle, `dispatched` records every
`m.add_handle` with the model clock at that moment, `completions` records
every handle taken off `ok_list` (`true`) or `err_list` (`false`), `logs`
collects the emitted log lines, `saves` records every persisted snapshot of
`(queue, processed_urls)`, and `clock` advances by exactly the `time.sleep`
amounts of `respect_robots_txt`. -/
structure St where
  queue : List Task
  processed : List String
  inFlight : List Task
  dispatched : List (Task × ℚ)
  completions : List (Task × Bool)
  logs : List LogLine
  saves : List (List Task × List String)
  clock : ℚ
deriving DecidableEq

/-- The inner dispatch loop of `main` (lines 246-271):
while there is a free handle slot and the queue is non-empty, pop the front
task; discard it if its URL is already in `processed_urls` (line 248);
otherwise consult `respect_robots_txt` — on refusal discard it (line 251),
on permission configure the handle and `m.add_handle` it (line 270),
recording the dispatch at the current clock. -/
def dispatchAux (cfg : Config) (robots : String → RobotsInfo) :
    List Task → St → St
  | [], st => { st with queue := [] }
  | t :: qs, st =>
    if st.inFlight.length < cfg.numConn then
      if t.url ∈ st.processed then
        dispatchAux cfg robots qs st
      else
        let r := respect_robots_txt (robots t.url) t.url
        if r.1 = true then
          dispatchAux cfg robots qs
            { st with
              logs := st.logs ++ r.2.2
              clock := st.clock + r.2.1
              inFlight := st.inFlight ++ [t]
              dispatched := st.dispatched ++ [(t, st.clock + r.2.1)] }
        else
          dispatchAux cfg robots qs { st with logs := st.logs ++ r.2.2 }
    else
      { st with queue := t :: qs }

/-- Entry point of the dispatch phase on the current state. -/
def dispatchLoop (cfg : Config) (robots : String → RobotsInfo) (st : St) :
    St :=
  dispatchAux cfg robots st.queue st

/-- Handling of one handle from `ok_list` (lines 280-292): when link search
is on and the task's depth is strictly below the configured depth, the links
extracted from the fetched content are appended to the queue at `depth + 1`
(lines 282-287); the URL is then added to `processed_urls` (line 289) and
the handle is removed, recorded as a successful completion. -/
def handleOk (cfg : Config) (t : Task) (links : List String) (st : St) :
    St :=
  let st1 :=
    if cfg.searchLinks = true ∧ t.depth < cfg.maxDepth then
      { st with queue := st.queue ++ links.map (fun l => ⟨l, t.depth + 1⟩) }
    else st
  { st1 with
    processed := st1.processed ++ [t.url]
    completions := st1.completions ++ [(t, true)] }

/-- Handling of one handle from `err_list` (lines 294-298): the failure is
logged and the handle removed; the URL is not added to `processed_urls`. -/
def handleErr (t : Task) (msg : String) (st : St) : St :=
  { st with
    logs := st.logs ++ [.fetchError t.url msg]
    completions := st.completions ++ [(t, false)] }

/-- One pass of the `m.perform()` / `m.info_read()` result handling
(lines 273-301): the handles whose transfers have completed in this cycle
(per the completion schedule) are split into `ok_list` and `err_list` by the
fetch oracle and handled in the source's order — all successes, then all
failures; handles still transferring stay in flight. -/
def drain (cfg : Config) (fetch : String → FetchResult)
    (done : Task → Bool) (st : St) : St :=
  let completed := st.inFlight.filter done
  let oks := completed.filter (fun t => (fetch t.url).isOk)
  let errs := completed.filter (fun t => !(fetch t.url).isOk)
  let st1 := { st with inFlight := st.inFlight.filter (fun t => !(done t)) }
  let st2 := oks.foldl (fun s t => handleOk cfg t (fetch t.url).linksOf s) st1
  errs.foldl (fun s t => handleErr t (fetch t.url).msgOf s) st2

/-- One iteration of the outer `while crawl_state["queue"]:` loop: the
dispatch loop fills the free slots, `m.perform()` drives the transfers
(no scheduler-state change), and the `info_read` loop folds in the cycle's
completions. -/
def loopBody (cfg : Config) (robots : String → RobotsInfo)
    (fetch : String → FetchResult) (done : Nat → Task → Bool)
    (k : Nat) (st : St) : St :=
  drain cfg fetch (done k) (dispatchLoop cfg robots st)

/-- The outer scheduler loop of `main` (lines 244-301), with explicit fuel:
iterate `loopBody` while the queue is non-empty, and exit — regardless of any
handles still in flight — as soon as the queue is empty at the loop head.
`none` means the fuel ran out before the loop exited. -/
def run (cfg : Config) (robots : String → RobotsInfo)
    (fetch : String → FetchResult) (done : Nat → Task → Bool) :
    Nat → Nat → St → Option St
  | 0, _, _ => none
  | fuel + 1, k, st =>
    if st.queue = [] then some st
    else run cfg robots fetch done fuel (k + 1) (loopBody cfg robots fetch done k st)

/-- Python's `str.strip()`: remove leading and trailing whitespace
(written on the character list so that it evaluates by kernel reduction). -/
def pyStrip (s : String) : String :=
  String.mk
    (((s.data.dropWhile Char.isWhitespace).reverse.dropWhile
        Char.isWhitespace).reverse)

/-- Python's `url.startswith("#")`: the first character is `#`. -/
def pyStartsHash (s : String) : Bool :=
  match s.data with
  | [] => false
  | c :: _ => c = '#'

/-- Seed-file handling (lines 227-231): each line is stripped; blank lines
and lines starting with `#` are ignored; the rest enter the queue at
depth 0. -/
def seedTasks (lines : List String) : List Task :=
  lines.filterMap fun raw =>
    let u := pyStrip raw
    if u = "" ∨ pyStartsHash u then none else some ⟨u, 0⟩

/-- Initial crawl state (lines 207-231): a fresh
`{"processed_urls": set(), "queue": []}` or a loaded checkpoint; when the
(loaded) queue is empty the seed URLs are enqueued at depth 0. -/
def initSt (loadedQueue : List Task) (loadedProcessed : List String)
    (lines : List String) : St :=
  { queue := if loadedQueue = [] then seedTasks lines else loadedQueue
    processed := loadedProcessed
    inFlight := []
    dispatched := []
    completions := []
    logs := []
    saves := []
    clock := 0 }

/-- The file operations a crawl-state save may perform. -/
inductive FileOp where
  | openWrite (path : String)
  | pickleDump
  | close
  | rename (src dst : String)
deriving DecidableEq

/-- The operations of the source's only save of the crawl state
(lines 303-305): `with open(state_file, "wb") as f: pickle.dump(...)` — a
direct overwrite of the target file. -/
def saveStateOps : List FileOp :=
  [.openWrite "crawl_state.pkl", .pickleDump, .close]

/-- Whether a save renames a file anywhere.  Modelled from the spec: the
spec's checkpoint atomicity requirement is "write-to-temp then rename, or
equivalent"; its observable signature among the file operations is a rename
step, absent from a direct overwrite. -/
def usesRename (ops : List FileOp) : Bool :=
  ops.any fun op =>
    match op with
    | .rename _ _ => true
    | _ => false

/-- `main` after configuration: build the initial crawl state, compute
`num_conn = min(settings['connections'], len(crawl_state["queue"]))`
(line 233), iterate the scheduler loop, then persist the crawl state once
(lines 303-305).  `none` only when the fuel is exhausted. -/
def mainRun (connections maxDepth : Nat) (searchLinks : Bool)
    (robots : String → RobotsInfo) (fetch : String → FetchResult)
    (done : Nat → Task → Bool)
    (loadedQueue : List Task) (loadedProcessed : List String)
    (lines : List String) (fuel : Nat) : Option St :=
  match
    run
      ⟨min connections (initSt loadedQueue loadedProcessed lines).queue.length,
        maxDepth, searchLinks⟩
      robots fetch done fuel 0 (initSt loadedQueue loadedProcessed lines) with
  | none => none
  | some st => some { st with saves := st.saves ++ [(st.queue, st.processed)] }

/-- The `(src, tgt)` pairs handed to `create_network_graph` (line 309) are
built from the final queue; the source further maps both components through
`urlparse(·).netloc`, which does not affect whether the list is empty. -/
def networkGraphEdges (st : St) : List (String × Nat) :=
  st.queue.map fun t => (t.url, t.depth)

/-! ### Invariants and measures used by the claims -/

/-- Every task in the queue, in flight, or recorded as a completion has
depth at most `m`. -/
def DepthLE (m : Nat) (st : St) : Prop :=
  (∀ t ∈ st.queue, t.depth ≤ m) ∧ (∀ t ∈ st.inFlight, t.depth ≤ m) ∧
    (∀ p ∈ st.completions, p.1.depth ≤ m)

/-- Scheduler state with explicit handle slots: `handles` mirrors
`m.handles` — index `i` holds the task of a transfer currently added to the
multi handle through `m.handles[i]`, or `none` when that handle is free. -/
structure HSt where
  queue : List Task
  processed : List String
  handles : List (Option Task)
  dispatched : List Task
  completions : List (Task × Bool)
deriving DecidableEq

/-- The source's `active_handles` counter: the handles currently added to
the multi handle (incremented on `m.add_handle`, decremented on
`m.remove_handle`, so always the number of busy slots). -/
def activeOf (handles : List (Option Task)) : Nat :=
  (handles.filterMap id).length

/-- Result of the outer scheduler loop in the handle-slot model. -/
inductive RunResult where
  | finished (st : HSt)
  | crashed
  | outOfFuel
deriving DecidableEq

/-- `ok_list` handling (lines 280-292) on the handle-slot state: link
append under the depth guard, then mark processed and record the
completion. -/
def hOk (cfg : Config) (t : Task) (links : List String) (st : HSt) : HSt :=
  let st1 :=
    if cfg.searchLinks = true ∧ t.depth < cfg.maxDepth then
      { st with queue := st.queue ++ links.map (fun l => ⟨l, t.depth + 1⟩) }
    else st
  { st1 with
    processed := st1.processed ++ [t.url]
    completions := st1.completions ++ [(t, true)] }

/-- The inner dispatch loop (lines 246-271) with the source's handle-slot
selection: an authorized task is assigned `m.handles[active_handles]`
(line 254); if that handle is still added to the multi handle — possible
once completions have arrived out of dispatch order — `m.add_handle`
raises `pycurl.error` (line 270) and the run crashes (`none`); otherwise the
slot is marked busy and the dispatch recorded.  The index is always in
range in reachable states (`activeOf < numConn = handles.length`), so the
out-of-range arm of the lookup is dead code. -/
def dispatchSlots (cfg : Config) (robots : String → RobotsInfo) :
    List Task → HSt → Option HSt
  | [], st => some { st with queue := [] }
  | t :: qs, st =>
    if activeOf st.handles < cfg.numConn then
      if t.url ∈ st.processed then
        dispatchSlots cfg robots qs st
      else if (respect_robots_txt (robots t.url) t.url).1 = true then
        match st.handles.get? (activeOf st.handles) with
        | none => none
        | some (some _) => none
        | some none =>
          dispatchSlots cfg robots qs
            { st with
              handles := st.handles.set (activeOf st.handles) (some t)
              dispatched := st.dispatched ++ [t] }
      else
        dispatchSlots cfg robots qs st
    else
      some { st with queue := t :: qs }

/-- One `info_read` pass (lines 273-301) on the handle-slot state: the busy
handles whose transfers have completed are handled — `ok_list` first, then
`err_list` — and their slots are freed (`m.remove_handle`); the rest stay
busy. -/
def drainSlots (cfg : Config) (fetch : String → FetchResult)
    (done : Task → Bool) (st : HSt) : HSt :=
  let completedOk := st.handles.filterMap fun s =>
    match s with
    | some t => if done t && (fetch t.url).isOk then some t else none
    | none => none
  let completedErr := st.handles.filterMap fun s =>
    match s with
    | some t => if done t && !(fetch t.url).isOk then some t else none
    | none => none
  let st1 := { st with
    handles := st.handles.map fun s =>
      match s with
      | some t => if done t then none else some t
      | none => none }
  let st2 := completedOk.foldl
    (fun s t => hOk cfg t (fetch t.url).linksOf s) st1
  completedErr.foldl
    (fun s t => { s with completions := s.completions ++ [(t, false)] }) st2

/-- The outer scheduler loop (lines 244-301) in the handle-slot model:
exits when the queue is empty at the loop head; propagates the
`pycurl.error` crash of a busy-handle dispatch. -/
def runSlots (cfg : Config) (robots : String → RobotsInfo)
    (fetch : String → FetchResult) (done : Nat → Task → Bool) :
    Nat → Nat → HSt → RunResult
  | 0, _, _ => .outOfFuel
  | fuel + 1, k, st =>
    if st.queue = [] then .finished st
    else
      match dispatchSlots cfg robots st.queue st with
      | none => .crashed
      | some st1 =>
        runSlots cfg robots fetch done fuel (k + 1)
          (drainSlots cfg fetch (done k) st1)

/-- `main` in the handle-slot model: seed the queue (lines 227-231),
compute `num_conn = min(connections, len(queue))` (line 233), create
`num_conn` free handles (lines 237-241), and iterate the loop. -/
def mainRunSlots (connections maxDepth : Nat) (searchLinks : Bool)
    (robots : String → RobotsInfo) (fetch : String → FetchResult)
    (done : Nat → Task → Bool)
    (loadedQueue : List Task) (loadedProcessed : List String)
    (lines : List String) (fuel : Nat) : RunResult :=
  runSlots
    ⟨min connections
        (if loadedQueue = [] then seedTasks lines else loadedQueue).length,
      maxDepth, searchLinks⟩
    robots fetch done fuel 0
    { queue := if loadedQueue = [] then seedTasks lines else loadedQueue
      processed := loadedProcessed
      handles := List.replicate
        (min connections
          (if loadedQueue = [] then seedTasks lines else loadedQueue).length)
        none
      dispatched := []
      completions := [] }

/-! ### Concrete scenarios used as witnesses and counterexamples -/

/-- The all-empty state. -/
def stEmpty : St := ⟨[], [], [], [], [], [], [], 0⟩

/-- Robots oracle: everything allowed, no declared crawl-delay. -/
def robotsAllow : String → RobotsInfo := fun _ => .ok true none

/-- Fetch oracle: every fetch succeeds with no outbound links. -/
def fetchEmpty : String → FetchResult := fun _ => .success []

/-- Fetch oracle: every fetch fails. -/
def fetchFail : String → FetchResult := fun _ => .failure "connection refused"

/-- Completion schedule: every transfer finishes within its cycle. -/
def doneAll : Nat → Task → Bool := fun _ _ => true

/-- Completion schedule: no transfer ever finishes (a fetch still slower
than the dispatch/drain cycle when the queue empties). -/
def doneNever : Nat → Task → Bool := fun _ _ => false

/-- Fetch oracle for a two-level site: the first page links to the second. -/
def fetchTwoLevel : String → FetchResult := fun u =>
  if u = "http://a.test/" then .success ["http://b.test/"] else .success []

/-- The final state of the two-level crawl used to witness claim C2. -/
def c2State : St :=
  (mainRun 1 1 true robotsAllow fetchTwoLevel doneAll [] []
    ["http://a.test/"] 5).getD stEmpty

/-- A state whose visited set already contains `http://v.test/`. -/
def c4State : St :=
  { stEmpty with processed := ["http://v.test/"] }

/-- Twelve distinct seed URLs for the checkpoint-cadence counterexample. -/
def seeds12 : List String :=
  ["http://s01/", "http://s02/", "http://s03/", "http://s04/", "http://s05/",
   "http://s06/", "http://s07/", "http://s08/", "http://s09/", "http://s10/",
   "http://s11/", "http://s12/"]

/-- The final state of the twelve-seed crawl of claim C9. -/
def c9State : St :=
  (mainRun 12 0 false robotsAllow fetchEmpty doneAll [] [] seeds12 3).getD
    stEmpty

/-- The final state of a small crawl used to witness claim C10. -/
def c10State : St :=
  (mainRun 1 1 true robotsAllow fetchTwoLevel doneAll [] []
    ["http://a.test/"] 5).getD stEmpty

/-- Robots oracle: reading robots.txt always raises. -/
def robotsErr : String → RobotsInfo := fun _ => .err

/-- Completion schedule for the handle-reuse crash: only the transfer of
the first seed ever completes within a cycle; the others are still running
when the next dispatch happens (transfers span many cycles because
`m.perform()` never blocks). -/
def c3done : Nat → Task → Bool := fun _ t => t.url = "http://s1.test/"


/-! ### Generic fold helpers -/

theorem foldl_preserve {α β : Type} {P : β → Prop} (f : β → α → β) :
    ∀ (l : List α) (s : β), P s → (∀ a ∈ l, ∀ s1, P s1 → P (f s1 a)) →
      P (List.foldl f s l)
  | [], _, hs, _ => hs
  | a :: l, s, hs, h =>
    foldl_preserve f l (f s a) (h a (by simp) s hs)
      (fun b hb s1 hs1 => h b (by simp [hb]) s1 hs1)

theorem foldl_fix {α β γ : Type} (g : β → γ) (f : β → α → β)
    (hf : ∀ s a, g (f s a) = g s) :
    ∀ (l : List α) (s : β), g (List.foldl f s l) = g s
  | [], _ => rfl
  | a :: l, s => (foldl_fix g f hf l (f s a)).trans (hf s a)

/-! ### Structural lemmas about the dispatch phase -/

theorem dispatchAux_processed (cfg : Config) (robots : String → RobotsInfo) :
    ∀ (q : List Task) (st : St),
      (dispatchAux cfg robots q st).processed = st.processed
  | [], _ => rfl
  | t :: qs, st => by
    simp only [dispatchAux]
    split
    · split
      · exact dispatchAux_processed cfg robots qs st
      · split
        · exact dispatchAux_processed cfg robots qs _
        · exact dispatchAux_processed cfg robots qs _
    · rfl

theorem dispatchAux_completions (cfg : Config) (robots : String → RobotsInfo) :
    ∀ (q : List Task) (st : St),
      (dispatchAux cfg robots q st).completions = st.completions
  | [], _ => rfl
  | t :: qs, st => by
    simp only [dispatchAux]
    split
    · split
      · exact dispatchAux_completions cfg robots qs st
      · split
        · exact dispatchAux_completions cfg robots qs _
        · exact dispatchAux_completions cfg robots qs _
    · rfl

theorem dispatchAux_saves (cfg : Config) (robots : String → RobotsInfo) :
    ∀ (q : List Task) (st : St),
      (dispatchAux cfg robots q st).saves = st.saves
  | [], _ => rfl
  | t :: qs, st => by
    simp only [dispatchAux]
    split
    · split
      · exact dispatchAux_saves cfg robots qs st
      · split
        · exact dispatchAux_saves cfg robots qs _
        · exact dispatchAux_saves cfg robots qs _
    · rfl

theorem dispatchAux_queue_mem (cfg : Config) (robots : String → RobotsInfo) :
    ∀ (q : List Task) (st : St) (t : Task),
      t ∈ (dispatchAux cfg robots q st).queue → t ∈ q
  | [], st, t => by simp [dispatchAux]
  | u :: qs, st, t => by
    simp only [dispatchAux]
    split
    · split
      · exact fun h => List.mem_cons_of_mem _
          (dispatchAux_queue_mem cfg robots qs st t h)
      · split
        · exact fun h => List.mem_cons_of_mem _
            (dispatchAux_queue_mem cfg robots qs _ t h)
        · exact fun h => List.mem_cons_of_mem _
            (dispatchAux_queue_mem cfg robots qs _ t h)
    · exact fun h => h

theorem dispatchAux_inFlight_mem (cfg : Config) (robots : String → RobotsInfo) :
    ∀ (q : List Task) (st : St) (t : Task),
      t ∈ (dispatchAux cfg robots q st).inFlight → t ∈ st.inFlight ∨ t ∈ q
  | [], _, _ => fun h => Or.inl h
  | u :: qs, st, t => by
    simp only [dispatchAux]
    split
    · split
      · exact fun h =>
          (dispatchAux_inFlight_mem cfg robots qs st t h).imp id
            (List.mem_cons_of_mem _)
      · split
        · intro h
          rcases dispatchAux_inFlight_mem cfg robots qs _ t h with h1 | h1
          · rcases List.mem_append.mp h1 with h2 | h2
            · exact Or.inl h2
            · have ht : t = u := by simpa using h2
              exact Or.inr (ht ▸ List.mem_cons_self u qs)
          · exact Or.inr (List.mem_cons_of_mem _ h1)
        · exact fun h =>
            (dispatchAux_inFlight_mem cfg robots qs _ t h).imp id
              (List.mem_cons_of_mem _)
    · exact fun h => Or.inl h

/-! ### Structural lemmas about the drain phase -/

theorem handleOk_processed (cfg : Config) (t : Task) (links : List String)
    (st : St) : (handleOk cfg t links st).processed = st.processed ++ [t.url] := by
  simp only [handleOk]
  split <;> rfl

theorem handleOk_completions (cfg : Config) (t : Task) (links : List String)
    (st : St) :
    (handleOk cfg t links st).completions = st.completions ++ [(t, true)] := by
  simp only [handleOk]
  split <;> rfl

theorem handleOk_inFlight (cfg : Config) (t : Task) (links : List String)
    (st : St) : (handleOk cfg t links st).inFlight = st.inFlight := by
  simp only [handleOk]
  split <;> rfl

theorem handleOk_saves (cfg : Config) (t : Task) (links : List String)
    (st : St) : (handleOk cfg t links st).saves = st.saves := by
  simp only [handleOk]
  split <;> rfl

theorem handleOk_queue_mem (cfg : Config) (t : Task) (links : List String)
    (st : St) (x : Task) (hx : x ∈ (handleOk cfg t links st).queue) :
    x ∈ st.queue ∨ (t.depth < cfg.maxDepth ∧ x.depth = t.depth + 1) := by
  simp only [handleOk] at hx
  split at hx
  · rename_i hguard
    simp only [List.mem_append, List.mem_map] at hx
    rcases hx with hx | ⟨l, _, rfl⟩
    · exact Or.inl hx
    · exact Or.inr ⟨hguard.2, rfl⟩
  · exact Or.inl hx

theorem handleErr_eq (t : Task) (msg : String) (st : St) :
    handleErr t msg st =
      { st with
        logs := st.logs ++ [.fetchError t.url msg]
        completions := st.completions ++ [(t, false)] } := rfl

theorem foldl_handleOk_queue_mem (cfg : Config)
    (fetch : String → FetchResult) :
    ∀ (l : List Task) (st : St) (x : Task),
      x ∈ (l.foldl (fun s t => handleOk cfg t (fetch t.url).linksOf s) st).queue →
        x ∈ st.queue ∨ ∃ t ∈ l, t.depth < cfg.maxDepth ∧ x.depth = t.depth + 1
  | [], _, _ => fun h => Or.inl h
  | t :: l, st, x => by
    intro h
    rcases foldl_handleOk_queue_mem cfg fetch l _ x h with h1 | ⟨u, hu, hlt, hd⟩
    · rcases handleOk_queue_mem cfg t _ st x h1 with h2 | ⟨hlt, hd⟩
      · exact Or.inl h2
      · exact Or.inr ⟨t, List.mem_cons_self t l, hlt, hd⟩
    · exact Or.inr ⟨u, List.mem_cons_of_mem _ hu, hlt, hd⟩

theorem foldl_completions_mem {f : St → Task → St}
    (hf : ∀ s t, ∃ b, (f s t).completions = s.completions ++ [(t, b)]) :
    ∀ (l : List Task) (st : St) (p : Task × Bool),
      p ∈ (l.foldl f st).completions → p ∈ st.completions ∨ p.1 ∈ l
  | [], _, _ => fun h => Or.inl h
  | t :: l, st, p => by
    intro h
    rcases foldl_completions_mem hf l _ p h with h1 | h1
    · rcases hf st t with ⟨b, hb⟩
      rw [hb, List.mem_append] at h1
      rcases h1 with h2 | h2
      · exact Or.inl h2
      · have : p = (t, b) := by simpa using h2
        exact Or.inr (by simp [this])
    · exact Or.inr (List.mem_cons_of_mem _ h1)

theorem drain_inFlight_mem (cfg : Config) (fetch : String → FetchResult)
    (done : Task → Bool) (st : St) (x : Task)
    (hx : x ∈ (drain cfg fetch done st).inFlight) : x ∈ st.inFlight := by
  have h1 : (drain cfg fetch done st).inFlight
      = st.inFlight.filter (fun t => !(done t)) := by
    simp only [drain]
    rw [foldl_fix St.inFlight
        (fun s t => handleErr t (fetch t.url).msgOf s) (fun s t => rfl),
      foldl_fix St.inFlight
        (fun s t => handleOk cfg t (fetch t.url).linksOf s)
        (fun s t => handleOk_inFlight cfg t _ s)]
  rw [h1] at hx
  exact List.mem_of_mem_filter hx

theorem drain_saves (cfg : Config) (fetch : String → FetchResult)
    (done : Task → Bool) (st : St) :
    (drain cfg fetch done st).saves = st.saves := by
  simp only [drain]
  rw [foldl_fix St.saves
      (fun s t => handleErr t (fetch t.url).msgOf s) (fun s t => rfl),
    foldl_fix St.saves
      (fun s t => handleOk cfg t (fetch t.url).linksOf s)
      (fun s t => handleOk_saves cfg t _ s)]

theorem drain_queue_mem (cfg : Config) (fetch : String → FetchResult)
    (done : Task → Bool) (st : St) (x : Task)
    (hx : x ∈ (drain cfg fetch done st).queue) :
    x ∈ st.queue ∨ ∃ t ∈ st.inFlight, t.depth < cfg.maxDepth ∧
      x.depth = t.depth + 1 := by
  simp only [drain] at hx
  rw [foldl_fix St.queue
      (fun s t => handleErr t (fetch t.url).msgOf s) (fun s t => rfl)] at hx
  rcases foldl_handleOk_queue_mem cfg fetch _ _ x hx with h1 | ⟨t, ht, hlt, hd⟩
  · exact Or.inl h1
  · exact Or.inr ⟨t, List.mem_of_mem_filter (List.mem_of_mem_filter ht), hlt, hd⟩

theorem drain_completions_mem (cfg : Config) (fetch : String → FetchResult)
    (done : Task → Bool) (st : St) (p : Task × Bool)
    (hp : p ∈ (drain cfg fetch done st).completions) :
    p ∈ st.completions ∨ p.1 ∈ st.inFlight := by
  simp only [drain] at hp
  rcases foldl_completions_mem (fun s t => ⟨false, rfl⟩) _ _ p hp with h1 | h1
  · rcases foldl_completions_mem
        (fun s t => ⟨true, handleOk_completions cfg t _ s⟩) _ _ p h1 with h2 | h2
    · exact Or.inl h2
    · exact Or.inr (List.mem_of_mem_filter (List.mem_of_mem_filter h2))
  · exact Or.inr (List.mem_of_mem_filter (List.mem_of_mem_filter h1))

/-! ### Lemmas about the outer loop -/

theorem run_preserve (cfg : Config) (robots : String → RobotsInfo)
    (fetch : String → FetchResult) (done : Nat → Task → Bool) {P : St → Prop}
    (hstep : ∀ k st, P st → P (loopBody cfg robots fetch done k st)) :
    ∀ (fuel k : Nat) (st st' : St), P st →
      run cfg robots fetch done fuel k st = some st' → P st'
  | 0, _, _, _, _, h => by simp [run] at h
  | fuel + 1, k, st, st', hP, h => by
    rw [run] at h
    split at h
    · cases h
      exact hP
    · exact run_preserve cfg robots fetch done hstep fuel (k + 1) _ st'
        (hstep k st hP) h

theorem run_queue_nil (cfg : Config) (robots : String → RobotsInfo)
    (fetch : String → FetchResult) (done : Nat → Task → Bool) :
    ∀ (fuel k : Nat) (st st' : St),
      run cfg robots fetch done fuel k st = some st' → st'.queue = []
  | 0, _, _, _, h => by simp [run] at h
  | fuel + 1, k, st, st', h => by
    rw [run] at h
    split at h
    · cases h
      assumption
    · exact run_queue_nil cfg robots fetch done fuel (k + 1) _ st' h

theorem run_saves (cfg : Config) (robots : String → RobotsInfo)
    (fetch : String → FetchResult) (done : Nat → Task → Bool) :
    ∀ (fuel k : Nat) (st st' : St),
      run cfg robots fetch done fuel k st = some st' → st'.saves = st.saves := by
  intro fuel k st st' h
  have := run_preserve cfg robots fetch done
    (P := fun s => s.saves = st.saves)
    (fun k1 s hs => by
      simp only [loopBody]
      rw [drain_saves, dispatchLoop, dispatchAux_saves]
      exact hs)
    fuel k st st' rfl h
  exact this

theorem mainRun_inv (connections maxDepth : Nat) (sl : Bool)
    (robots : String → RobotsInfo) (fetch : String → FetchResult)
    (done : Nat → Task → Bool) (lq : List Task) (lp : List String)
    (lines : List String) (fuel : Nat) (st : St)
    (h : mainRun connections maxDepth sl robots fetch done lq lp lines fuel
      = some st) :
    ∃ st0,
      run ⟨min connections (initSt lq lp lines).queue.length, maxDepth, sl⟩
          robots fetch done fuel 0 (initSt lq lp lines) = some st0 ∧
        st = { st0 with saves := st0.saves ++ [(st0.queue, st0.processed)] } := by
  unfold mainRun at h
  split at h
  · exact absurd h (by simp)
  · rename_i st0 hst0
    exact ⟨st0, hst0, (Option.some_inj.mp h).symm⟩

theorem seedTasks_depth (lines : List String) :
    ∀ t ∈ seedTasks lines, t.depth = 0 := by
  intro t ht
  simp only [seedTasks, List.mem_filterMap] at ht
  obtain ⟨raw, _, hr⟩ := ht
  split at hr
  · cases hr
  · cases hr
    rfl

/-! ### Depth-bound preservation (claim C2) -/

theorem loopBody_depthLE (cfg : Config) (robots : String → RobotsInfo)
    (fetch : String → FetchResult) (done : Nat → Task → Bool) (k : Nat)
    (st : St) (h : DepthLE cfg.maxDepth st) :
    DepthLE cfg.maxDepth (loopBody cfg robots fetch done k st) := by
  obtain ⟨hq, hf, hc⟩ := h
  simp only [loopBody, dispatchLoop]
  set st1 := dispatchAux cfg robots st.queue st with hst1
  have hq1 : ∀ t ∈ st1.queue, t.depth ≤ cfg.maxDepth :=
    fun t ht => hq t (dispatchAux_queue_mem cfg robots st.queue st t ht)
  have hf1 : ∀ t ∈ st1.inFlight, t.depth ≤ cfg.maxDepth := by
    intro t ht
    rcases dispatchAux_inFlight_mem cfg robots st.queue st t ht with h1 | h1
    · exact hf t h1
    · exact hq t h1
  have hc1 : ∀ p ∈ st1.completions, p.1.depth ≤ cfg.maxDepth := by
    rw [hst1, dispatchAux_completions]
    exact hc
  refine ⟨?_, ?_, ?_⟩
  · intro t ht
    rcases drain_queue_mem cfg fetch (done k) st1 t ht with h1 | ⟨u, hu, hlt, hd⟩
    · exact hq1 t h1
    · omega
  · exact fun t ht => hf1 t (drain_inFlight_mem cfg fetch (done k) st1 t ht)
  · intro p hp
    rcases drain_completions_mem cfg fetch (done k) st1 p hp with h1 | h1
    · exact hc1 p h1
    · exact hf1 p.1 h1

/-! ### The claims -/

/-- C1: the claim says each normalized URL is fetched at most once per crawl
run.  The code violates it: dedup is checked only when a task is popped,
against `processed_urls`, which is updated only when a fetch completes, so
two queued copies of the same URL popped before either completes are both
dispatched and both fetched.  This theorem evaluates the embedded scheduler
on two identical seeds with two connections: the URL is dispatched twice and
two outcomes for it are recorded. -/
theorem c1_duplicate_fetch_eval :
    (mainRun 2 0 false robotsAllow fetchEmpty doneAll [] []
        ["http://u.test/", "http://u.test/"] 3).map
      (fun st => (st.dispatched.map (fun p => p.1.url),
        st.completions.map (fun p => p.1.url)))
    = some (["http://u.test/", "http://u.test/"],
        ["http://u.test/", "http://u.test/"]) := by decide

/-- C2: every recorded outcome has depth at most the configured max depth,
and a task whose depth equals the max depth never spawns children — links
are only enqueued, at `depth + 1`, when the discovering task's depth is
strictly below the max depth (the `c.depth < settings['depth']` guard at
line 282). -/
theorem c2_depth_bound (connections maxDepth : Nat) (sl : Bool)
    (robots : String → RobotsInfo) (fetch : String → FetchResult)
    (done : Nat → Task → Bool) (lq : List Task) (lp : List String)
    (lines : List String) (fuel : Nat) (st : St)
    (hload : ∀ t ∈ lq, t.depth ≤ maxDepth)
    (h : mainRun connections maxDepth sl robots fetch done lq lp lines fuel
      = some st) :
    (∀ p ∈ st.completions, p.1.depth ≤ maxDepth) ∧
      (∀ (cfg : Config) (t : Task) (links : List String) (s : St),
        t.depth = cfg.maxDepth → (handleOk cfg t links s).queue = s.queue) := by
  constructor
  · obtain ⟨st0, hrun, rfl⟩ :=
      mainRun_inv connections maxDepth sl robots fetch done lq lp lines fuel
        st h
    have hinit : DepthLE maxDepth (initSt lq lp lines) := by
      refine ⟨?_, by simp [initSt], by simp [initSt]⟩
      intro t ht
      simp only [initSt] at ht
      split at ht
      · have := seedTasks_depth lines t ht
        omega
      · exact hload t ht
    have hfin := run_preserve
        ⟨min connections (initSt lq lp lines).queue.length, maxDepth, sl⟩
        robots fetch done (P := DepthLE maxDepth)
        (fun k s hs => loopBody_depthLE _ robots fetch done k s hs)
        fuel 0 _ st0 hinit hrun
    exact fun p hp => hfin.2.2 p hp
  · intro cfg t links s ht
    simp [handleOk, ht]

/-- Witness for C2 at a concrete two-level crawl. -/
theorem c2_depth_bound_witness :
    (∀ t ∈ ([] : List Task), t.depth ≤ 1) ∧
      (mainRun 1 1 true robotsAllow fetchTwoLevel doneAll [] []
        ["http://a.test/"] 5 = some c2State) ∧
      ((∀ p ∈ c2State.completions, p.1.depth ≤ 1) ∧
        (∀ (cfg : Config) (t : Task) (links : List String) (s : St),
          t.depth = cfg.maxDepth → (handleOk cfg t links s).queue = s.queue)) :=
  ⟨by simp, rfl,
    c2_depth_bound 1 1 true robotsAllow fetchTwoLevel doneAll [] []
      ["http://a.test/"] 5 c2State (by simp) rfl⟩

/-- C3: the claim says the scheduler loop always reaches the terminated
state in finitely many steps for a finite link graph and finite max depth.
The code violates it: when completions arrive out of dispatch order —
the ordinary case, since `m.perform()` never blocks and transfers span many
cycles — the dispatch `c = m.handles[active_handles]` (line 254) picks a
handle that is still added to the multi handle, and `m.add_handle(c)`
(line 270) raises an unhandled `pycurl.error`, aborting the run before
termination.  This theorem evaluates the handle-slot model on three seeds
with two connections where only the first transfer completes in its cycle:
the third dispatch lands on the busy second handle and the run crashes. -/
theorem c3_handle_reuse_crash_eval :
    mainRunSlots 2 0 false robotsAllow fetchEmpty c3done [] []
      ["http://s1.test/", "http://s2.test/", "http://s3.test/"] 3
      = RunResult.crashed := by decide

/-- C4 counterexample: the claim says pushing a task whose URL is already in
the VisitedSet is a no-op on the Frontier.  At a concrete state whose
visited set holds `http://v.test/`, handling a successful fetch that
discovered that same URL appends it to the queue anyway: the push is not a
no-op and the Frontier now holds a visited URL. -/
theorem c4_push_counterexample :
    "http://v.test/" ∈ c4State.processed ∧ c4State.queue = [] ∧
      (handleOk ⟨1, 1, true⟩ ⟨"http://p.test/", 0⟩ ["http://v.test/"]
          c4State).queue = [⟨"http://v.test/", 1⟩] := by decide

/-- C4 amended: discovered links are appended to the Frontier
unconditionally — no dedup against the VisitedSet or the Frontier happens at
push time (the only push-side guard is the discovering task's depth, checked
before the whole batch); the dedup against the VisitedSet is enforced at pop
time instead: a popped task whose URL is already in `processed_urls` is
discarded without being dispatched. -/
theorem c4_push_amended (cfg : Config) (robots : String → RobotsInfo)
    (t : Task) (links : List String) (qs : List Task) (st : St)
    (hsl : cfg.searchLinks = true) (hd : t.depth < cfg.maxDepth)
    (hroom : st.inFlight.length < cfg.numConn) (hvis : t.url ∈ st.processed) :
    (handleOk cfg t links st).queue
        = st.queue ++ links.map (fun l => ⟨l, t.depth + 1⟩) ∧
      dispatchAux cfg robots (t :: qs) st = dispatchAux cfg robots qs st := by
  constructor
  · simp [handleOk, hsl, hd]
  · simp [dispatchAux, hroom, hvis]

/-- Witness for C4 amended at a concrete state. -/
theorem c4_push_amended_witness :
    ((⟨1, 1, true⟩ : Config).searchLinks = true ∧
        (⟨"http://p.test/", 0⟩ : Task).depth < (⟨1, 1, true⟩ : Config).maxDepth ∧
        c4State.inFlight.length < (⟨1, 1, true⟩ : Config).numConn ∧
        "http://v.test/" ∈ c4State.processed) ∧
      (handleOk ⟨1, 1, true⟩ ⟨"http://p.test/", 0⟩ ["http://v.test/"]
            c4State).queue
          = c4State.queue
            ++ ["http://v.test/"].map (fun l => ⟨l, 0 + 1⟩) ∧
        dispatchAux ⟨1, 1, true⟩ robotsAllow
            (⟨"http://v.test/", 0⟩ :: []) c4State
          = dispatchAux ⟨1, 1, true⟩ robotsAllow [] c4State := by
  refine ⟨⟨rfl, by decide, by decide, by decide⟩, ?_⟩
  exact c4_push_amended ⟨1, 1, true⟩ robotsAllow ⟨"http://v.test/", 0⟩
    ["http://v.test/"] [] c4State rfl (by decide) (by decide) (by decide)

/-- C5: the claim says every dispatched task produces exactly one recorded
outcome and no task is silently dropped, even one still in flight when the
Frontier becomes empty.  The code violates it: the outer loop exits as soon
as the queue is empty, abandoning in-flight transfers.  This theorem
evaluates the embedded scheduler on one seed whose transfer has not
completed by the time the queue empties: the task was dispatched, the loop
exits normally, yet no completion and no log line was ever recorded for
it — it is still marked in flight at exit. -/
theorem c5_abandoned_task_eval :
    (mainRun 1 0 false robotsAllow fetchEmpty doneNever [] []
        ["http://slow.test/"] 2).map
      (fun st => (st.dispatched.map (fun p => p.1), st.completions,
        st.inFlight, st.logs))
    = some ([⟨"http://slow.test/", 0⟩], [], [⟨"http://slow.test/", 0⟩], []) := by
  decide

/-- C6: the claim says a URL whose fetch fails is added to the VisitedSet
and never re-fetched.  The code violates it: the `err_list` handler
(lines 294-298) logs the failure but never adds the URL to
`processed_urls`, so a second queued copy of the URL is dispatched and
fetched again.  This theorem evaluates the embedded scheduler on two copies
of a failing URL with one connection: both are dispatched in turn, both fail,
and the visited set stays empty. -/
theorem c6_failed_not_visited_eval :
    (mainRun 1 0 false robotsAllow fetchFail doneAll [] []
        ["http://f.test/", "http://f.test/"] 4).map
      (fun st => (st.processed, st.dispatched.map (fun p => p.1),
        st.completions))
    = some ([], [⟨"http://f.test/", 0⟩, ⟨"http://f.test/", 0⟩],
        [(⟨"http://f.test/", 0⟩, false), (⟨"http://f.test/", 0⟩, false)]) := by
  decide

/-- C9 counterexample: the claim says the crawl state is persisted after
every 10 completed outcomes and that each checkpoint write is
write-to-temp-then-rename.  On a crawl of twelve seeds the embedded
scheduler records twelve completions but exactly one save (the final one
after the loop), and the save's file operations contain no rename. -/
theorem c9_checkpoint_counterexample :
    (mainRun 12 0 false robotsAllow fetchEmpty doneAll [] [] seeds12 3
        = some c9State) ∧
      c9State.completions.length = 12 ∧ c9State.saves.length = 1 ∧
      usesRename saveStateOps = false :=
  ⟨rfl, by decide, by decide, rfl⟩

/-- C9 amended: the crawl state is persisted exactly once per run, after the
main loop has exited with an empty frontier (lines 303-305); the write is a
direct overwrite of the state file with no temporary file and no rename, and
no checkpoint happens during the loop. -/
theorem c9_checkpoint_amended (connections maxDepth : Nat) (sl : Bool)
    (robots : String → RobotsInfo) (fetch : String → FetchResult)
    (done : Nat → Task → Bool) (lq : List Task) (lp : List String)
    (lines : List String) (fuel : Nat) (st : St)
    (h : mainRun connections maxDepth sl robots fetch done lq lp lines fuel
      = some st) :
    st.saves = [([], st.processed)] ∧ usesRename saveStateOps = false := by
  obtain ⟨st0, hrun, rfl⟩ :=
    mainRun_inv connections maxDepth sl robots fetch done lq lp lines fuel st h
  have hq := run_queue_nil _ robots fetch done fuel 0 _ st0 hrun
  have hs := run_saves _ robots fetch done fuel 0 _ st0 hrun
  constructor
  · show st0.saves ++ [(st0.queue, st0.processed)] = [([], st0.processed)]
    rw [hs, hq]
    rfl
  · rfl

/-- Witness for C9 amended at the twelve-seed crawl. -/
theorem c9_checkpoint_amended_witness :
    (mainRun 12 0 false robotsAllow fetchEmpty doneAll [] [] seeds12 3
        = some c9State) ∧
      (c9State.saves = [([], c9State.processed)] ∧
        usesRename saveStateOps = false) :=
  ⟨rfl,
    c9_checkpoint_amended 12 0 false robotsAllow fetchEmpty doneAll [] []
      seeds12 3 c9State rfl⟩

/-- C10: at normal termination of the main loop the persisted crawl state's
queue is empty — the loop only exits when the queue is empty — and
consequently the edge list handed to the network-graph renderer, built from
that queue, is empty as well. -/
theorem c10_final_queue_empty (connections maxDepth : Nat) (sl : Bool)
    (robots : String → RobotsInfo) (fetch : String → FetchResult)
    (done : Nat → Task → Bool) (lq : List Task) (lp : List String)
    (lines : List String) (fuel : Nat) (st : St)
    (h : mainRun connections maxDepth sl robots fetch done lq lp lines fuel
      = some st) :
    st.queue = [] ∧ networkGraphEdges st = [] ∧
      ∀ s ∈ st.saves, s.1 = ([] : List Task) := by
  obtain ⟨st0, hrun, rfl⟩ :=
    mainRun_inv connections maxDepth sl robots fetch done lq lp lines fuel st h
  have hq := run_queue_nil _ robots fetch done fuel 0 _ st0 hrun
  have hs := run_saves _ robots fetch done fuel 0 _ st0 hrun
  refine ⟨hq, by simp [networkGraphEdges, hq], ?_⟩
  intro s hsv
  have : ({ st0 with
      saves := st0.saves ++ [(st0.queue, st0.processed)] } : St).saves
      = [(st0.queue, st0.processed)] := by
    rw [hs]
    rfl
  rw [this] at hsv
  have hss : s = (st0.queue, st0.processed) := by simpa using hsv
  rw [hss, hq]

/-- C8: when the robots document cannot be fetched or parsed,
`respect_robots_txt` fails open — the URL is treated as allowed with the
default 1-second spacing, the failure is logged — and the dispatch loop goes
on to dispatch the task and continue the crawl rather than aborting. -/
theorem c8_fail_open (cfg : Config) (robots : String → RobotsInfo)
    (t : Task) (qs : List Task) (st : St)
    (herr : robots t.url = .err)
    (hroom : st.inFlight.length < cfg.numConn)
    (hnew : t.url ∉ st.processed) :
    (∀ u, respect_robots_txt RobotsInfo.err u = (true, 1, [.robotsError u])) ∧
      dispatchAux cfg robots (t :: qs) st
        = dispatchAux cfg robots qs
            { st with
              logs := st.logs ++ [.robotsError t.url]
              clock := st.clock + 1
              inFlight := st.inFlight ++ [t]
              dispatched := st.dispatched ++ [(t, st.clock + 1)] } := by
  refine ⟨fun u => rfl, ?_⟩
  simp [dispatchAux, hroom, hnew, herr, respect_robots_txt]

/-- Witness for C8 at a concrete state. -/
theorem c8_fail_open_witness :
    (robotsErr "http://r.test/" = .err ∧
        stEmpty.inFlight.length < (⟨1, 0, false⟩ : Config).numConn ∧
        "http://r.test/" ∉ stEmpty.processed) ∧
      ((∀ u, respect_robots_txt RobotsInfo.err u
          = (true, 1, [.robotsError u])) ∧
        dispatchAux ⟨1, 0, false⟩ robotsErr
            (⟨"http://r.test/", 0⟩ :: []) stEmpty
          = dispatchAux ⟨1, 0, false⟩ robotsErr []
              { stEmpty with
                logs := stEmpty.logs ++ [.robotsError "http://r.test/"]
                clock := stEmpty.clock + 1
                inFlight := stEmpty.inFlight ++ [⟨"http://r.test/", 0⟩]
                dispatched := stEmpty.dispatched
                  ++ [(⟨"http://r.test/", 0⟩, stEmpty.clock + 1)] }) :=
  ⟨⟨rfl, by decide, by decide⟩,
    c8_fail_open ⟨1, 0, false⟩ robotsErr ⟨"http://r.test/", 0⟩ [] stEmpty
      rfl (by decide) (by decide)⟩

/-- Witness for C10 at a concrete two-level crawl. -/
theorem c10_final_queue_empty_witness :
    (mainRun 1 1 true robotsAllow fetchTwoLevel doneAll [] []
        ["http://a.test/"] 5 = some c10State) ∧
      (c10State.queue = [] ∧ networkGraphEdges c10State = [] ∧
        ∀ s ∈ c10State.saves, s.1 = ([] : List Task)) :=
  ⟨rfl,
    c10_final_queue_empty 1 1 true robotsAllow fetchTwoLevel doneAll [] []
      ["http://a.test/"] 5 c10State rfl⟩

/-! ### Politeness spacing (claim C7) -/

end Crawlie
